import Mathlib

/-!
# Verification of the cashu-gateway protocol implementation

A shallow embedding, in Lean 4, of the core operations of the
cashu-gateway repository: the SIG_ALL message construction and
signature routines (`src/lib/p2pk-sigall.ts`), the dealer's
`swapHTLC` split (`src/dealer/swap-htlc.ts`), the gateway's
`pay_invoice` handler (`src/gateway.ts`), the gateway's payment
listener and `processPayment` (`src/dealer.ts`, MakeInvoiceHandler),
and the wallet's proof store and `sendHTLC` (`src/wallet.ts`).

External cryptographic primitives (SHA-256, Schnorr sign/verify,
hash-to-curve, the mint's swap endpoint, JSON parsing of secrets)
are taken as explicit function parameters: the theorems hold for
every choice of those primitives, which is exactly the contract the
TypeScript code relies on.  Bytes are modelled as `Nat` (with
explicit `< 256` bounds where they matter), byte strings as
`List Nat`, and JavaScript strings as Lean `String`.
-/

namespace Gateway

/-- Witness envelope attached to a proof: `{ signatures: [hex], preimage?: hex }`
(`src/types.ts` / NUT-11 witness shape), modelled structurally rather than as
its JSON stringification. -/
structure Witness where
  signatures : List String
  preimage : Option String
  deriving Repr, DecidableEq

/-- A Cashu proof `{ id, amount, secret, C, dleq?, witness? }`
(`@cashu/cashu-ts` `Proof` as used throughout the repository; `dleq` is only
ever copied around, so it is kept opaque as its serialized string). -/
structure Proof where
  id : String
  amount : Nat
  secret : String
  C : String
  dleq : Option String := none
  witness : Option Witness := none
  deriving Repr, DecidableEq

/-- The `{ B_: string }` view of a blinded message that
`constructSigAllMessage` receives (`src/lib/p2pk-sigall.ts`). -/
structure BlindedMessageRef where
  B_ : String
  deriving Repr, DecidableEq

/-- A serialized blinded message `{ amount, B_, id }`. -/
structure SerializedBlindedMessage where
  amount : Nat
  B_ : String
  id : String
  deriving Repr, DecidableEq

/-- A blinded signature `{ C_, id, amount }` as returned by the mint swap. -/
structure BlindedSig where
  C_ : String
  id : String
  amount : Nat
  deriving Repr, DecidableEq

/-! ## Hex encoding (noble `bytesToHex` / `hexToBytes`, lowercase) -/

/-- Lowercase hex digit for a value `< 16` (as produced by noble's
`bytesToHex`). -/
def hexDigitChar (d : Nat) : Char :=
  if d < 10 then Char.ofNat (48 + d) else Char.ofNat (87 + d)

/-- The two hex characters of one byte. -/
def byteToHexChars (b : Nat) : List Char :=
  [hexDigitChar (b / 16), hexDigitChar (b % 16)]

/-- noble `bytesToHex`: lowercase hex string of a byte string. -/
def bytesToHex (bs : List Nat) : String :=
  String.mk (bs.flatMap byteToHexChars)

/-- Value of one hex character (0 on a non-hex character; the TypeScript
`hexToBytes` throws there, and no theorem below exercises that case). -/
def hexDigitVal (c : Char) : Nat :=
  if 48 ≤ c.toNat ∧ c.toNat ≤ 57 then c.toNat - 48
  else if 97 ≤ c.toNat ∧ c.toNat ≤ 102 then c.toNat - 87
  else if 65 ≤ c.toNat ∧ c.toNat ≤ 70 then c.toNat - 55
  else 0

/-- Decode a list of hex characters two at a time. -/
def hexPairsToBytes : List Char → List Nat
  | c₁ :: c₂ :: rest => (hexDigitVal c₁ * 16 + hexDigitVal c₂) :: hexPairsToBytes rest
  | _ => []

/-- noble `hexToBytes`. -/
def hexToBytes (s : String) : List Nat :=
  hexPairsToBytes s.data

/-! ## UTF-8 encoding (`TextEncoder().encode`) -/

/-- UTF-8 encoding of one character (code point), as `TextEncoder` produces. -/
def utf8EncodeChar (c : Char) : List Nat :=
  let n := c.toNat
  if n < 128 then [n]
  else if n < 2048 then [192 + n / 64, 128 + n % 64]
  else if n < 65536 then [224 + n / 4096, 128 + (n / 64) % 64, 128 + n % 64]
  else [240 + n / 262144, 128 + (n / 4096) % 64, 128 + (n / 64) % 64, 128 + n % 64]

/-- `new TextEncoder().encode(s)`: the UTF-8 bytes of a string. -/
def utf8 (s : String) : List Nat :=
  s.data.flatMap utf8EncodeChar

/-! ## SIG_ALL message construction and signatures (`src/lib/p2pk-sigall.ts`) -/

/-- `constructSigAllMessage(inputProofs, outputBlindedMessages)`: concatenates
all input secrets, then all output `B_` hex strings, UTF-8 encodes the result,
and hashes it.  `sha256` is the external SHA-256 primitive. -/
def constructSigAllMessage (sha256 : List Nat → List Nat)
    (inputProofs : List Proof) (outputBlindedMessages : List BlindedMessageRef) :
    List Nat :=
  let message := inputProofs.foldl (fun acc p => acc ++ p.secret) ""
  let message := outputBlindedMessages.foldl (fun acc o => acc ++ o.B_) message
  sha256 (utf8 message)

/-- `signSigAllMessage(privkey, inputProofs, outputBlindedMessages)`:
signs the SIG_ALL message with the external Schnorr primitive
`schnorrSign : message → privkeyBytes → signatureBytes` and hex-encodes the
signature. -/
def signSigAllMessage (sha256 : List Nat → List Nat)
    (schnorrSign : List Nat → List Nat → List Nat)
    (privkey : String) (inputProofs : List Proof)
    (outputBlindedMessages : List BlindedMessageRef) : String :=
  let message := constructSigAllMessage sha256 inputProofs outputBlindedMessages
  let privkeyBytes := hexToBytes privkey
  bytesToHex (schnorrSign message privkeyBytes)

/-- `verifySigAllSignature(signature, pubkey, inputProofs, outputBlindedMessages)`:
hex-decodes the signature and public key, strips a 33-byte compressed key to
its 32-byte x-only form (returning `false` on any other length), and checks the
signature over the SIG_ALL message with the external Schnorr verifier
`schnorrVerify : signatureBytes → message → pubkeyBytes32 → Bool`. -/
def verifySigAllSignature (sha256 : List Nat → List Nat)
    (schnorrVerify : List Nat → List Nat → List Nat → Bool)
    (signature pubkey : String) (inputProofs : List Proof)
    (outputBlindedMessages : List BlindedMessageRef) : Bool :=
  let sigBytes := hexToBytes signature
  let pubkeyBytes := hexToBytes pubkey
  if pubkeyBytes.length = 33 then
    schnorrVerify sigBytes (constructSigAllMessage sha256 inputProofs outputBlindedMessages)
      (pubkeyBytes.drop 1)
  else if pubkeyBytes.length = 32 then
    schnorrVerify sigBytes (constructSigAllMessage sha256 inputProofs outputBlindedMessages)
      pubkeyBytes
  else
    false

/-- Concatenation of a list of strings, left to right (the spec's
`secret_0 || … || secret_n || B_0 || … || B_m`). -/
def strConcat (l : List String) : String :=
  l.foldr (fun a b => a ++ b) ""

/-! ### String concatenation lemmas -/

theorem string_append_assoc (a b c : String) : a ++ b ++ c = a ++ (b ++ c) :=
  String.ext (by simp [String.data_append, List.append_assoc])

theorem string_append_empty (a : String) : a ++ "" = a :=
  String.ext (by simp [String.data_append])

theorem string_empty_append (a : String) : "" ++ a = a :=
  String.ext (by simp [String.data_append])

theorem strConcat_cons (a : String) (l : List String) :
    strConcat (a :: l) = a ++ strConcat l := rfl

theorem strConcat_append (l₁ l₂ : List String) :
    strConcat (l₁ ++ l₂) = strConcat l₁ ++ strConcat l₂ := by
  induction l₁ with
  | nil => simp [strConcat, string_empty_append]
  | cons a l ih =>
      simp only [List.cons_append, strConcat_cons, ih, string_append_assoc]

theorem foldl_string_append (l : List String) (init : String) :
    l.foldl (fun a b => a ++ b) init = init ++ strConcat l := by
  induction l generalizing init with
  | nil => simp [strConcat, string_append_empty]
  | cons a l ih =>
      simp only [List.foldl_cons, strConcat_cons, ih, string_append_assoc]

/-- C1: `constructSigAllMessage` returns the SHA-256 hash of the UTF-8
encoding of the concatenation of all input secret strings in input order
followed by all output `B_` hex strings in output order. -/
theorem constructSigAllMessage_spec (sha256 : List Nat → List Nat)
    (inputProofs : List Proof) (outputBlindedMessages : List BlindedMessageRef) :
    constructSigAllMessage sha256 inputProofs outputBlindedMessages =
      sha256 (utf8 (strConcat (inputProofs.map Proof.secret ++
        outputBlindedMessages.map BlindedMessageRef.B_))) := by
  unfold constructSigAllMessage
  have h₁ : inputProofs.foldl (fun acc p => acc ++ p.secret) "" =
      strConcat (inputProofs.map Proof.secret) := by
    rw [← List.foldl_map Proof.secret (fun a b => a ++ b), foldl_string_append,
      string_empty_append]
  have h₂ : ∀ init : String,
      outputBlindedMessages.foldl (fun acc o => acc ++ o.B_) init =
        init ++ strConcat (outputBlindedMessages.map BlindedMessageRef.B_) := by
    intro init
    rw [← List.foldl_map BlindedMessageRef.B_ (fun a b => a ++ b),
      foldl_string_append]
  simp only [h₁, h₂, strConcat_append]

/-! ### Hex round-trip lemmas -/

theorem hexDigitVal_hexDigitChar (d : Nat) (hd : d < 16) :
    hexDigitVal (hexDigitChar d) = d := by
  interval_cases d <;> decide

theorem hexPairsToBytes_byte (b : Nat) (hb : b < 256) (rest : List Char) :
    hexPairsToBytes (byteToHexChars b ++ rest) = b :: hexPairsToBytes rest := by
  have h₁ : b / 16 < 16 := by omega
  have h₂ : b % 16 < 16 := by omega
  simp only [byteToHexChars, List.cons_append, List.nil_append, hexPairsToBytes,
    hexDigitVal_hexDigitChar _ h₁, hexDigitVal_hexDigitChar _ h₂]
  congr 1
  omega

theorem hexToBytes_bytesToHex (bs : List Nat) (hbs : ∀ b ∈ bs, b < 256) :
    hexToBytes (bytesToHex bs) = bs := by
  have : ∀ l : List Char, (String.mk l).data = l := fun _ => rfl
  simp only [hexToBytes, bytesToHex, this]
  induction bs with
  | nil => rfl
  | cons b bs ih =>
      have hb : b < 256 := hbs b (List.mem_cons_self b bs)
      rw [List.flatMap_cons, hexPairsToBytes_byte b hb,
        ih (fun x hx => hbs x (List.mem_cons_of_mem b hx))]

/-- C2: for every choice of the external SHA-256 and Schnorr primitives
satisfying the Schnorr library's round-trip contract at the given key,
`verifySigAllSignature` accepts the signature produced by
`signSigAllMessage` with that private key, given the corresponding
compressed (02-prefixed) public key, over the same inputs and outputs. -/
theorem sigAll_sign_verify_roundTrip
    (sha256 : List Nat → List Nat)
    (schnorrSign : List Nat → List Nat → List Nat)
    (schnorrVerify : List Nat → List Nat → List Nat → Bool)
    (pubkeyOf : List Nat → List Nat)
    (privkeyBytes : List Nat)
    (hpriv : ∀ b ∈ privkeyBytes, b < 256)
    (hpkLen : (pubkeyOf privkeyBytes).length = 32)
    (hpkBytes : ∀ b ∈ pubkeyOf privkeyBytes, b < 256)
    (hsigBytes : ∀ m : List Nat, ∀ b ∈ schnorrSign m privkeyBytes, b < 256)
    (hverify : ∀ m : List Nat,
      schnorrVerify (schnorrSign m privkeyBytes) m (pubkeyOf privkeyBytes) = true)
    (inputProofs : List Proof) (outputBlindedMessages : List BlindedMessageRef) :
    verifySigAllSignature sha256 schnorrVerify
      (signSigAllMessage sha256 schnorrSign (bytesToHex privkeyBytes)
        inputProofs outputBlindedMessages)
      (bytesToHex (2 :: pubkeyOf privkeyBytes))
      inputProofs outputBlindedMessages = true := by
  have hpk : ∀ b ∈ 2 :: pubkeyOf privkeyBytes, b < 256 := by
    intro b hb
    rcases List.mem_cons.mp hb with h | h
    · omega
    · exact hpkBytes b h
  simp only [verifySigAllSignature, signSigAllMessage,
    hexToBytes_bytesToHex privkeyBytes hpriv,
    hexToBytes_bytesToHex _ (hsigBytes _),
    hexToBytes_bytesToHex _ hpk]
  rw [List.length_cons, hpkLen]
  simp only [if_pos rfl, List.drop_one, List.tail_cons]
  exact hverify _

/-- Closed witness for C2: the round-trip theorem applied at a concrete
instantiation of the primitives and a concrete key. -/
theorem sigAll_sign_verify_roundTrip_witness :
    verifySigAllSignature (fun _ => []) (fun _ _ _ => true)
      (signSigAllMessage (fun _ => []) (fun _ _ => [5]) (bytesToHex [1]) [] [])
      (bytesToHex (2 :: List.replicate 32 0)) [] [] = true :=
  sigAll_sign_verify_roundTrip (fun _ => []) (fun _ _ => [5]) (fun _ _ _ => true)
    (fun _ => List.replicate 32 0) [1]
    (by decide)
    (by simp)
    (by
      intro b hb
      have := List.eq_of_mem_replicate hb
      omega)
    (by
      intro m b hb
      simp only [List.mem_singleton] at hb
      omega)
    (fun _ => rfl) [] []

/-! ## HTLC output construction (`Wallet.sendHTLC` factory, `src/wallet.ts`)
and the gateway's `processPayment` configuration (`src/dealer.ts`,
`MakeInvoiceHandler.processPayment`) -/

/-- The `HTLCConfig` object accepted by `Wallet.sendHTLC` (`src/types.ts`).
Optional fields are `Option`; the TypeScript code treats an absent field as
`undefined`. -/
structure HTLCConfig where
  preimageHash : String
  sigflag : Option String := none
  pubkeys : Option (List String) := none
  n_sigs : Option Nat := none
  locktime : Option Nat := none
  refund : Option (List String) := none
  n_sigs_refund : Option Nat := none
  deriving Repr, DecidableEq

/-- The tag list built by the output factory inside `Wallet.sendHTLC`:
`sigflag`, `pubkeys`, `n_sigs`, `locktime`, `refund`, `n_sigs_refund`, each
added only when the corresponding config field is set (and, for the pubkey
lists, non-empty); numbers are stringified. -/
def htlcOutputTags (config : HTLCConfig) : List (List String) :=
  (match config.sigflag with
    | some s => [["sigflag", s]]
    | none => []) ++
  (match config.pubkeys with
    | some pks => if pks.length > 0 then [["pubkeys"] ++ pks] else []
    | none => []) ++
  (match config.n_sigs with
    | some n => [["n_sigs", toString n]]
    | none => []) ++
  (match config.locktime with
    | some t => [["locktime", toString t]]
    | none => []) ++
  (match config.refund with
    | some pks => if pks.length > 0 then [["refund"] ++ pks] else []
    | none => []) ++
  (match config.n_sigs_refund with
    | some n => [["n_sigs_refund", toString n]]
    | none => [])

/-- The body of an HTLC secret `{ nonce, data, tags }`. -/
structure HTLCSecretData where
  data : String
  nonce : String
  tags : List (List String)
  deriving Repr, DecidableEq

/-- The `["HTLC", { data, nonce, tags }]` secret built by the `sendHTLC`
output factory for one denomination, with the fresh random nonce passed in
explicitly. -/
def htlcOutputSecret (config : HTLCConfig) (nonce : String) :
    String × HTLCSecretData :=
  ("HTLC", { data := config.preimageHash, nonce := nonce,
             tags := htlcOutputTags config })

/-- The `HTLCConfig` that `MakeInvoiceHandler.processPayment` passes to
`wallet.sendHTLC` after a `payment_received` notification: SIG_ALL, locking
and refund pubkeys both `02`-prefixed gateway pubkey, locktime the invoice
expiry, `n_sigs_refund` 1, and `preimageHash` the invoice's payment hash.
No `n_sigs` field is passed. -/
def processPaymentHTLCConfig (paymentHash : String) (expiryUnix : Nat)
    (gatewayPubkeyHex : String) : HTLCConfig :=
  { preimageHash := paymentHash,
    sigflag := some "SIG_ALL",
    pubkeys := some ["02" ++ gatewayPubkeyHex],
    locktime := some expiryUnix,
    refund := some ["02" ++ gatewayPubkeyHex],
    n_sigs_refund := some 1 }

/-- C4 counterexample: the HTLC secrets minted by `processPayment` carry no
`n_sigs` tag at all — `sendHTLC` only adds `n_sigs` when the config sets it,
and `processPayment` does not — so the claimed tag set (which includes
`n_sigs=1`) is not what the code produces. -/
theorem processPayment_no_nSigs_tag :
    ¬ ["n_sigs", "1"] ∈ htlcOutputTags (processPaymentHTLCConfig "aa" 100 "bb") := by
  decide

/-- C4 (amended): every HTLC secret the gateway mints after a
`payment_received` notification carries exactly the tags `sigflag=SIG_ALL`,
`pubkeys=[02‖gateway pubkey]`, `locktime=invoice expiry`,
`refund=[02‖gateway pubkey]`, `n_sigs_refund=1` — and no `n_sigs` tag — and
has data equal to the invoice's payment hash. -/
theorem processPayment_htlc_secret_shape (paymentHash : String)
    (expiryUnix : Nat) (g : String) (nonce : String) :
    htlcOutputTags (processPaymentHTLCConfig paymentHash expiryUnix g) =
      [["sigflag", "SIG_ALL"], ["pubkeys", "02" ++ g],
       ["locktime", toString expiryUnix], ["refund", "02" ++ g],
       ["n_sigs_refund", "1"]] ∧
    (htlcOutputSecret (processPaymentHTLCConfig paymentHash expiryUnix g)
        nonce).2.data = paymentHash ∧
    (htlcOutputSecret (processPaymentHTLCConfig paymentHash expiryUnix g)
        nonce).1 = "HTLC" := by
  refine ⟨?_, rfl, rfl⟩
  have h1 : toString (1 : Nat) = "1" := rfl
  simp [htlcOutputTags, processPaymentHTLCConfig, h1]

/-! ## Gateway `pay_invoice` handler (`src/gateway.ts`, `handleRequest`) -/

/-- Observable outcome of one `pay_invoice` request: the JSON-RPC error code
of the response (`none` on success), whether the Lightning invoice was paid
via NWC, and whether the HTLC token was swapped/claimed at the mint. -/
structure PayInvoiceOutcome where
  errorCode : Option Int
  paidInvoice : Bool
  claimedToken : Bool
  deriving Repr, DecidableEq

/-- The gateway's `pay_invoice` handler.  `parseSecretData` is the external
`JSON.parse(secret)[1].data` extraction; `invoicePaymentHash` is the payment
hash decoded from the BOLT11 invoice; `claimSucceeds` abstracts whether
`wallet.receiveHTLCToken` succeeds.  The handler reads the HTLC data from the
FIRST proof of the token, compares it to the payment hash, and only on a
match pays the invoice and then claims the token; an empty proof list makes
the indexing throw, which the surrounding catch turns into `-32603`. -/
def handlePayInvoice (parseSecretData : String → String)
    (invoicePaymentHash : String) (proofs : List Proof)
    (claimSucceeds : Bool) : PayInvoiceOutcome :=
  match proofs with
  | [] => { errorCode := some (-32603), paidInvoice := false, claimedToken := false }
  | p₀ :: _ =>
    let preimageHash := parseSecretData p₀.secret
    if invoicePaymentHash ≠ preimageHash then
      { errorCode := some (-32602), paidInvoice := false, claimedToken := false }
    else if claimSucceeds then
      { errorCode := none, paidInvoice := true, claimedToken := true }
    else
      { errorCode := some (-32603), paidInvoice := true, claimedToken := false }

/-- C5: when the HTLC data of the submitted token does not equal the
invoice's payment hash, the gateway answers with error code `-32602`, does
not pay the invoice and does not swap or claim the token. -/
theorem payInvoice_hash_mismatch (parseSecretData : String → String)
    (invoicePaymentHash : String) (p₀ : Proof) (rest : List Proof)
    (claimSucceeds : Bool)
    (hne : parseSecretData p₀.secret ≠ invoicePaymentHash) :
    handlePayInvoice parseSecretData invoicePaymentHash (p₀ :: rest)
        claimSucceeds =
      { errorCode := some (-32602), paidInvoice := false,
        claimedToken := false } := by
  simp [handlePayInvoice, Ne.symm hne]

/-- Closed witness for C5 at a concrete mismatching token and invoice. -/
theorem payInvoice_hash_mismatch_witness :
    handlePayInvoice (fun s => s) "ab"
        [{ id := "k", amount := 1, secret := "cd", C := "c" }] true =
      { errorCode := some (-32602), paidInvoice := false,
        claimedToken := false } :=
  payInvoice_hash_mismatch (fun s => s) "ab"
    { id := "k", amount := 1, secret := "cd", C := "c" } [] true (by decide)

/-- C6: the payment-hash check reads the HTLC data only from the first proof:
the handler's outcome is unchanged under replacing the remaining proofs, and
whenever the first proof's data equals the payment hash the check passes (the
invoice is paid) regardless of the remaining proofs. -/
theorem payInvoice_reads_only_first_proof (parseSecretData : String → String)
    (invoicePaymentHash : String) (p₀ : Proof) (rest rest' : List Proof)
    (claimSucceeds : Bool) :
    handlePayInvoice parseSecretData invoicePaymentHash (p₀ :: rest)
        claimSucceeds =
      handlePayInvoice parseSecretData invoicePaymentHash (p₀ :: rest')
        claimSucceeds ∧
    (parseSecretData p₀.secret = invoicePaymentHash →
      (handlePayInvoice parseSecretData invoicePaymentHash (p₀ :: rest)
          claimSucceeds).paidInvoice = true) := by
  constructor
  · rfl
  · intro h
    simp [handlePayInvoice, h]
    cases claimSucceeds <;> rfl

/-- Closed witness for C6 at a concrete matching token. -/
theorem payInvoice_reads_only_first_proof_witness :
    (handlePayInvoice (fun s => s) "ab"
        [{ id := "k", amount := 1, secret := "ab", C := "c" },
         { id := "k", amount := 1, secret := "zz", C := "c" }] true =
      handlePayInvoice (fun s => s) "ab"
        [{ id := "k", amount := 1, secret := "ab", C := "c" }] true) ∧
    (handlePayInvoice (fun s => s) "ab"
        [{ id := "k", amount := 1, secret := "ab", C := "c" },
         { id := "k", amount := 1, secret := "zz", C := "c" }]
        true).paidInvoice = true := by
  have h := payInvoice_reads_only_first_proof (fun s => s) "ab"
    { id := "k", amount := 1, secret := "ab", C := "c" }
    [{ id := "k", amount := 1, secret := "zz", C := "c" }] [] true
  exact ⟨h.1, h.2 (by decide)⟩

/-! ## SIG_ALL witness placement (`processPayment` in `src/dealer.ts` and
`Wallet.claimRefund` in `src/wallet.ts`) -/

/-- `processPayment`'s witness attachment: after signing the SIG_ALL message,
the gateway maps over ALL input proofs and attaches
`{ signatures: [signature], preimage }` to each of them. -/
def attachSigAllWitness (signature preimage : String)
    (inputProofs : List Proof) : List Proof :=
  inputProofs.map fun proof =>
    { proof with
      witness := some ({ signatures := [signature], preimage := some preimage }) }

/-- The per-(index, proof) body of the map inside `Wallet.claimRefund`:
`// For SIG_ALL, only the first proof needs the witness` — index 0 gets
`{ signatures }` (one signature per refund key, over that proof's secret),
every other index returns the proof unchanged.  `signP2PKSecret` is the
external cashu-ts signer, applied as `signP2PKSecret(proof.secret, key)`. -/
def claimRefundMapFun (signP2PKSecret : String → String → String)
    (refundPrivateKeys : List String) (ip : Nat × Proof) : Proof :=
  if ip.1 = 0 then
    { ip.2 with
      witness := some
        ({ signatures := refundPrivateKeys.map fun k =>
             signP2PKSecret ip.2.secret k,
           preimage := none }) }
  else ip.2

/-- `Wallet.claimRefund`'s witness attachment over the whole token. -/
def claimRefundWitnessProofs (signP2PKSecret : String → String → String)
    (refundPrivateKeys : List String) (proofs : List Proof) : List Proof :=
  proofs.enum.map (claimRefundMapFun signP2PKSecret refundPrivateKeys)

theorem claimRefundMapFun_enumFrom (signP2PKSecret : String → String → String)
    (refundPrivateKeys : List String) (rest : List Proof) :
    ∀ n : Nat, n ≠ 0 →
      (List.enumFrom n rest).map
        (claimRefundMapFun signP2PKSecret refundPrivateKeys) = rest := by
  induction rest with
  | nil => intro n _; rfl
  | cons a l ih =>
      intro n hn
      simp only [List.enumFrom_cons, List.map_cons, claimRefundMapFun,
        if_neg hn, ih (n + 1) (Nat.succ_ne_zero n)]

/-- C8 counterexample: in the SIG_ALL swap transaction `processPayment`
builds (two HTLC proofs whose secrets carry `sigflag SIG_ALL`), the second
proof also carries a witness, contradicting the claim that siblings after the
first carry none. -/
theorem sigAllWitness_on_sibling :
    ((attachSigAllWitness "sig" "pre"
        [{ id := "k", amount := 1,
           secret := "[\"HTLC\",\x7b\"data\":\"aa\",\"tags\":[[\"sigflag\",\"SIG_ALL\"]]\x7d]",
           C := "c0" },
         { id := "k", amount := 2,
           secret := "[\"HTLC\",\x7b\"data\":\"aa\",\"tags\":[[\"sigflag\",\"SIG_ALL\"]]\x7d]",
           C := "c1" }]).getD 1
      { id := "x", amount := 0, secret := "x", C := "x" }).witness ≠ none := by
  decide

/-- C8 (amended): `claimRefund` attaches the refund witness only to the first
proof and leaves every sibling proof unchanged, but `processPayment` attaches
the aggregate SIG_ALL witness (signature plus preimage) to EVERY proof of the
swap transaction, not only the first. -/
theorem sigAllWitness_placement (signature preimage : String)
    (signP2PKSecret : String → String → String)
    (refundPrivateKeys : List String) (proofs : List Proof) :
    (∀ i : Nat, (attachSigAllWitness signature preimage proofs).get? i =
      (proofs.get? i).map fun p =>
        { p with witness := some ({ signatures := [signature],
                                    preimage := some preimage }) }) ∧
    (∀ (p₀ : Proof) (rest : List Proof),
      claimRefundWitnessProofs signP2PKSecret refundPrivateKeys (p₀ :: rest) =
        { p₀ with
          witness :=
            some ({ signatures :=
                      refundPrivateKeys.map (signP2PKSecret p₀.secret),
                    preimage := none }) } :: rest) := by
  constructor
  · intro i
    simp [attachSigAllWitness, List.get?_map]
  · intro p₀ rest
    show ((p₀ :: rest).enumFrom 0).map
        (claimRefundMapFun signP2PKSecret refundPrivateKeys) = _
    simp only [List.enumFrom_cons, List.map_cons,
      claimRefundMapFun_enumFrom signP2PKSecret refundPrivateKeys rest 1
        one_ne_zero]
    rfl

/-! ## Local proof store (`WalletDatabase` in `src/wallet.ts`)

The `proofs` table has `Y TEXT PRIMARY KEY`; `saveProofs` computes
`Y = hashToCurve(utf8(secret))` for each proof and runs
`INSERT OR IGNORE`; `removeProofs` deletes by the same `Y` values.  The
table is modelled as the list of its rows in insertion order; `h2c` is the
external `hashToCurve(..).toHex(true)` primitive. -/

/-- `hashToCurve(new TextEncoder().encode(secret)).toHex(true)`. -/
def proofY (h2c : List Nat → String) (secret : String) : String :=
  h2c (utf8 secret)

/-- One row of the `proofs` table. -/
structure StoredProof where
  Y : String
  id : String
  amount : Nat
  secret : String
  C : String
  dleq : Option String
  witness : Option Witness
  deriving Repr, DecidableEq

/-- One `INSERT OR IGNORE` of `saveProofs`: if a row with the proof's `Y`
already exists the statement is a no-op, otherwise the row is appended. -/
def insertProofRow (h2c : List Nat → String) (store : List StoredProof)
    (p : Proof) : List StoredProof :=
  let Y := proofY h2c p.secret
  if store.any (fun row => row.Y == Y) then store
  else store ++ [{ Y := Y, id := p.id, amount := p.amount, secret := p.secret,
                   C := p.C, dleq := p.dleq, witness := p.witness }]

/-- `WalletDatabase.saveProofs`. -/
def saveProofs (h2c : List Nat → String) (store : List StoredProof)
    (proofs : List Proof) : List StoredProof :=
  proofs.foldl (insertProofRow h2c) store

/-- `WalletDatabase.removeProofs`: `DELETE FROM proofs WHERE Y IN (…)` with
the `Y` values recomputed from the given proofs' secrets. -/
def removeProofs (h2c : List Nat → String) (store : List StoredProof)
    (proofs : List Proof) : List StoredProof :=
  let yValues := proofs.map fun p => proofY h2c p.secret
  store.filter fun row => ! yValues.contains row.Y

/-- One operation against the proof store. -/
inductive StoreOp where
  | save (proofs : List Proof)
  | remove (proofs : List Proof)

/-- Apply one store operation. -/
def applyStoreOp (h2c : List Nat → String) (store : List StoredProof) :
    StoreOp → List StoredProof
  | .save ps => saveProofs h2c store ps
  | .remove ps => removeProofs h2c store ps

/-- Run a sequence of store operations from the empty (freshly created)
table. -/
def runStoreOps (h2c : List Nat → String) (ops : List StoreOp) :
    List StoredProof :=
  ops.foldl (applyStoreOp h2c) []

/-- The store invariant: every row's `Y` is the hash-to-curve of its own
secret, and no two rows share a `Y`. -/
def StoreInv (h2c : List Nat → String) (store : List StoredProof) : Prop :=
  (∀ row ∈ store, row.Y = proofY h2c row.secret) ∧
  store.Pairwise fun r₁ r₂ => r₁.Y ≠ r₂.Y

theorem storeInv_insertProofRow (h2c : List Nat → String)
    (store : List StoredProof) (p : Proof) (h : StoreInv h2c store) :
    StoreInv h2c (insertProofRow h2c store p) := by
  simp only [insertProofRow]
  by_cases hc : (store.any fun row => row.Y == proofY h2c p.secret) = true
  · rw [if_pos hc]
    exact h
  · rw [if_neg hc]
    have hnot : ∀ row ∈ store, row.Y ≠ proofY h2c p.secret := by
      intro row hrow
      simp only [List.any_eq_true, not_exists, not_and] at hc
      simpa using hc row hrow
    constructor
    · intro row hrow
      rcases List.mem_append.mp hrow with hmem | hmem
      · exact h.1 row hmem
      · simp only [List.mem_singleton] at hmem
        subst hmem
        rfl
    · rw [List.pairwise_append]
      refine ⟨h.2, List.pairwise_singleton _ _, ?_⟩
      intro a ha b hb
      simp only [List.mem_singleton] at hb
      subst hb
      exact hnot a ha

theorem storeInv_saveProofs (h2c : List Nat → String) (proofs : List Proof) :
    ∀ store : List StoredProof, StoreInv h2c store →
      StoreInv h2c (saveProofs h2c store proofs) := by
  induction proofs with
  | nil => intro store h; exact h
  | cons p ps ih =>
      intro store h
      exact ih (insertProofRow h2c store p) (storeInv_insertProofRow h2c store p h)

theorem storeInv_removeProofs (h2c : List Nat → String)
    (store : List StoredProof) (proofs : List Proof) (h : StoreInv h2c store) :
    StoreInv h2c (removeProofs h2c store proofs) := by
  unfold removeProofs
  constructor
  · intro row hrow
    exact h.1 row (List.mem_of_mem_filter hrow)
  · exact h.2.sublist (List.filter_sublist store)

theorem storeInv_runStoreOps (h2c : List Nat → String) (ops : List StoreOp) :
    StoreInv h2c (runStoreOps h2c ops) := by
  have base : StoreInv h2c [] := ⟨by simp, List.Pairwise.nil⟩
  have step : ∀ (l : List StoreOp) (store : List StoredProof),
      StoreInv h2c store → StoreInv h2c (l.foldl (applyStoreOp h2c) store) := by
    intro l
    induction l with
    | nil => intro store h; exact h
    | cons op ops ih =>
        intro store h
        refine ih (applyStoreOp h2c store op) ?_
        cases op with
        | save ps => exact storeInv_saveProofs h2c ps store h
        | remove ps => exact storeInv_removeProofs h2c store ps h
  exact step ops [] base

/-- C9: after any sequence of `saveProofs` and `removeProofs` operations on
the fresh store, every row's key `Y` equals `hashToCurve(utf8(secret))` of
its own secret, no two rows share a `Y`, and inserting a proof whose `Y` is
already present leaves the store unchanged. -/
theorem proofStore_invariant (h2c : List Nat → String) (ops : List StoreOp) :
    StoreInv h2c (runStoreOps h2c ops) ∧
    (∀ (store : List StoredProof) (p : Proof),
      (store.any fun row => row.Y == proofY h2c p.secret) = true →
      insertProofRow h2c store p = store) := by
  refine ⟨storeInv_runStoreOps h2c ops, ?_⟩
  intro store p hp
  unfold insertProofRow
  simp only [hp, if_true]

/-- Closed witness for C9: a save followed by a removal, plus a duplicate
insert against a store that already holds the row. -/
theorem proofStore_invariant_witness :
    StoreInv (fun _ => "Y")
      (runStoreOps (fun _ => "Y")
        [StoreOp.save [{ id := "k", amount := 1, secret := "s", C := "c" }],
         StoreOp.remove []]) ∧
    insertProofRow (fun _ => "Y")
      [{ Y := "Y", id := "k", amount := 1, secret := "s", C := "c",
         dleq := none, witness := none }]
      { id := "k2", amount := 2, secret := "s", C := "c2" } =
      [{ Y := "Y", id := "k", amount := 1, secret := "s", C := "c",
         dleq := none, witness := none }] := by
  have h := proofStore_invariant (fun _ => "Y")
    [StoreOp.save [{ id := "k", amount := 1, secret := "s", C := "c" }],
     StoreOp.remove []]
  exact ⟨h.1, h.2 _ _ (by decide)⟩

/-! ## `Wallet.sendHTLC` store behavior (`src/wallet.ts`)

`sendHTLC` first calls `selectProofsToSend`, which reads all rows, asks the
external cashu-ts selector for a spendable subset (throwing when it returns
null), and DELETES the selected rows from the table; only then does it run
the mint swap (`wallet.send`), and only on success does it save the change
(`keep`) proofs.  `selectProofs` abstracts the cashu-ts selector and
`mintSend` the mint swap; an `.error` outcome models a thrown exception. -/

/-- The `{ keep, send }` result of `wallet.send`. -/
structure SendResult where
  keep : List Proof
  send : List Proof
  deriving Repr, DecidableEq

/-- `Wallet.sendHTLC` restricted to its observable effect on the proof
store: the pair of the thrown-or-returned result and the final table
contents. -/
def sendHTLC (h2c : List Nat → String)
    (selectProofs : List StoredProof → Nat → Option (List Proof))
    (mintSend : List Proof → Except String SendResult)
    (store : List StoredProof) (amount : Nat) :
    Except String SendResult × List StoredProof :=
  match selectProofs store amount with
  | none => (.error "Failed to select proofs to send", store)
  | some sendProofs =>
    let store₁ := removeProofs h2c store sendProofs
    match mintSend sendProofs with
    | .error e => (.error e, store₁)
    | .ok result =>
        (.ok result,
         if 0 < result.keep.length then saveProofs h2c store₁ result.keep
         else store₁)

/-- C10 counterexample: with one stored proof selected for the send and a
mint swap that fails, `sendHTLC` leaves the store changed — the input proof
has already been removed and no change was recorded. -/
theorem sendHTLC_mint_failure_changes_store :
    (sendHTLC (fun _ => "Y")
        (fun _ _ => some [{ id := "k", amount := 1, secret := "s", C := "c" }])
        (fun _ => .error "mint unavailable")
        [{ Y := "Y", id := "k", amount := 1, secret := "s", C := "c",
           dleq := none, witness := none }] 1).2 ≠
      [{ Y := "Y", id := "k", amount := 1, secret := "s", C := "c",
         dleq := none, witness := none }] := by
  decide

/-- C10 (amended): `sendHTLC` removes the selected input proofs from the
store BEFORE the mint swap and records the change (`keep`) outputs only
after the swap succeeds; when the mint swap fails, the inputs remain removed
and no change is recorded, so the store is left without the inputs rather
than unchanged. -/
theorem sendHTLC_store_effects (h2c : List Nat → String)
    (selectProofs : List StoredProof → Nat → Option (List Proof))
    (mintSend : List Proof → Except String SendResult)
    (store : List StoredProof) (amount : Nat) (sendProofs : List Proof) :
    (∀ e : String, selectProofs store amount = some sendProofs →
      mintSend sendProofs = .error e →
      sendHTLC h2c selectProofs mintSend store amount =
        (.error e, removeProofs h2c store sendProofs)) ∧
    (∀ result : SendResult, selectProofs store amount = some sendProofs →
      mintSend sendProofs = .ok result →
      sendHTLC h2c selectProofs mintSend store amount =
        (.ok result,
         if 0 < result.keep.length then
           saveProofs h2c (removeProofs h2c store sendProofs) result.keep
         else removeProofs h2c store sendProofs)) := by
  constructor
  · intro e hsel hmint
    simp only [sendHTLC, hsel, hmint]
  · intro result hsel hmint
    simp only [sendHTLC, hsel, hmint]

/-- Closed witness for C10's amended theorem at a concrete store, selector
and both mint outcomes. -/
theorem sendHTLC_store_effects_witness :
    (sendHTLC (fun _ => "Y")
        (fun _ _ => some [{ id := "k", amount := 1, secret := "s", C := "c" }])
        (fun _ => .error "mint unavailable")
        [{ Y := "Y", id := "k", amount := 1, secret := "s", C := "c",
           dleq := none, witness := none }] 1 =
      (.error "mint unavailable",
       removeProofs (fun _ => "Y")
         [{ Y := "Y", id := "k", amount := 1, secret := "s", C := "c",
            dleq := none, witness := none }]
         [{ id := "k", amount := 1, secret := "s", C := "c" }])) ∧
    (sendHTLC (fun _ => "Y")
        (fun _ _ => some [{ id := "k", amount := 1, secret := "s", C := "c" }])
        (fun _ => .ok { keep := [], send := [] })
        [{ Y := "Y", id := "k", amount := 1, secret := "s", C := "c",
           dleq := none, witness := none }] 1 =
      (.ok { keep := [], send := [] },
       removeProofs (fun _ => "Y")
         [{ Y := "Y", id := "k", amount := 1, secret := "s", C := "c",
            dleq := none, witness := none }]
         [{ id := "k", amount := 1, secret := "s", C := "c" }])) := by
  constructor
  · exact (sendHTLC_store_effects (fun _ => "Y") _ _ _ 1
      [{ id := "k", amount := 1, secret := "s", C := "c" }]).1
      "mint unavailable" rfl rfl
  · exact (sendHTLC_store_effects (fun _ => "Y") _ _ _ 1
      [{ id := "k", amount := 1, secret := "s", C := "c" }]).2
      { keep := [], send := [] } rfl rfl

/-! ## Dealer `swap_htlc` (`src/dealer/swap-htlc.ts` and the `swap_htlc`
branch of the dealer's `handleRequest` in `src/dealer/index.ts`) -/

/-- Locally retained output data `{ blindedMessage, r, secret }`. -/
structure OutputData where
  blindedMessage : SerializedBlindedMessage
  r : String
  secret : String
  deriving Repr, DecidableEq

/-- A pending dealer fee entry, keyed by preimage hash. -/
structure PendingDealerFee where
  outputData : List OutputData
  amount : Nat
  alicePubkey : String
  timestamp : Nat
  deriving Repr, DecidableEq

/-- `Wallet.unblindSignaturesAndCreateProofs`: throws on a length mismatch,
otherwise unblinds pairwise in order.  `toProof` abstracts
`od.toProof(sig, keyset)` together with the keyset lookup, whose failure it
reports as `.error`. -/
def unblindSignaturesAndCreateProofs
    (toProof : OutputData → BlindedSig → Except String Proof)
    (outputData : List OutputData) (blindedSignatures : List BlindedSig) :
    Except String (List Proof) :=
  if outputData.length ≠ blindedSignatures.length then
    .error "Mismatch between output data and blinded signatures"
  else
    (outputData.zip blindedSignatures).mapM fun x => toProof x.1 x.2

/-- The `{ dealerTotal, aliceSignatures }` result of `swapHTLC`. -/
structure SwapHTLCResult where
  dealerTotal : Nat
  aliceSignatures : List BlindedSig
  deriving Repr, DecidableEq

/-- `swapHTLC` (`src/dealer/swap-htlc.ts`): takes the mint's blinded
signatures (`mintSwapResult` abstracts `wallet.receiveSigAllToken`, i.e. the
mint swap), slices them at `pendingFee.outputData.length` — the first slice
for the dealer, the rest for Alice — unblinds the dealer's slice, saves the
resulting proofs, and returns Alice's slice untouched. -/
def swapHTLC (h2c : List Nat → String)
    (toProof : OutputData → BlindedSig → Except String Proof)
    (mintSwapResult : Except String (List BlindedSig))
    (pendingFee : PendingDealerFee) (store : List StoredProof) :
    Except String (SwapHTLCResult × List StoredProof) :=
  match mintSwapResult with
  | .error e => .error e
  | .ok blindedSignatures =>
    let dealerSignatures := blindedSignatures.take pendingFee.outputData.length
    let aliceSignatures := blindedSignatures.drop pendingFee.outputData.length
    match unblindSignaturesAndCreateProofs toProof pendingFee.outputData
        dealerSignatures with
    | .error e => .error e
    | .ok dealerProofs =>
        .ok ({ dealerTotal := (dealerProofs.map Proof.amount).sum,
               aliceSignatures := aliceSignatures },
             saveProofs h2c store dealerProofs)

/-- Observable outcome of one `swap_htlc` request at the dealer: the error
code of the response (`none` on success), the `blinded_signatures` message
sent to Alice (recipient pubkey, echoed preimage hash, signatures), the
final proof store, and the pending-fee map afterwards. -/
structure DealerSwapOutcome where
  errorCode : Option Int
  sentToAlice : Option (String × String × List BlindedSig)
  store : List StoredProof
  pendingAfter : List (String × PendingDealerFee)
  deriving Repr, DecidableEq

/-- The `swap_htlc` branch of the dealer's `handleRequest`: look up the
pending fee by `requestPreimageHash` (`-32603` when absent), run `swapHTLC`
(`-32603` on failure, store untouched), then forward Alice's slice to her in
a `blinded_signatures` message and delete the pending entry. -/
def handleSwapHTLC (h2c : List Nat → String)
    (toProof : OutputData → BlindedSig → Except String Proof)
    (pendingDealerFees : List (String × PendingDealerFee))
    (requestPreimageHash : String)
    (mintSwapResult : Except String (List BlindedSig))
    (store : List StoredProof) : DealerSwapOutcome :=
  match List.lookup requestPreimageHash pendingDealerFees with
  | none =>
      { errorCode := some (-32603), sentToAlice := none, store := store,
        pendingAfter := pendingDealerFees }
  | some pendingFee =>
      match swapHTLC h2c toProof mintSwapResult pendingFee store with
      | .error _ =>
          { errorCode := some (-32603), sentToAlice := none, store := store,
            pendingAfter := pendingDealerFees }
      | .ok (result, store₁) =>
          { errorCode := none,
            sentToAlice := some (pendingFee.alicePubkey,
              (requestPreimageHash, result.aliceSignatures)),
            store := store₁,
            pendingAfter := pendingDealerFees.filter fun kv =>
              kv.1 != requestPreimageHash }

/-- C3: for a `swap_htlc` with a matching pending fee entry, the mint's
blinded signatures are split by count at the boundary
`|pendingFee.outputData|`: the first slice is unblinded and saved into the
dealer's store, exactly the remaining slice, in unchanged order, is sent to
Alice, and the two slices recompose the original signature list. -/
theorem swapHTLC_split (h2c : List Nat → String)
    (toProof : OutputData → BlindedSig → Except String Proof)
    (pendingDealerFees : List (String × PendingDealerFee))
    (requestPreimageHash : String) (pendingFee : PendingDealerFee)
    (sigs : List BlindedSig) (store : List StoredProof)
    (dealerProofs : List Proof)
    (hlook : List.lookup requestPreimageHash pendingDealerFees =
      some pendingFee)
    (hunblind : unblindSignaturesAndCreateProofs toProof pendingFee.outputData
      (sigs.take pendingFee.outputData.length) = .ok dealerProofs) :
    handleSwapHTLC h2c toProof pendingDealerFees requestPreimageHash
        (.ok sigs) store =
      { errorCode := none,
        sentToAlice := some (pendingFee.alicePubkey,
          (requestPreimageHash, sigs.drop pendingFee.outputData.length)),
        store := saveProofs h2c store dealerProofs,
        pendingAfter := pendingDealerFees.filter fun kv =>
          kv.1 != requestPreimageHash } ∧
    sigs.take pendingFee.outputData.length ++
      sigs.drop pendingFee.outputData.length = sigs := by
  refine ⟨?_, List.take_append_drop _ sigs⟩
  simp only [handleSwapHTLC, hlook, swapHTLC, hunblind]

/-- Closed witness for C3: one dealer output, two mint signatures — the
first is unblinded and stored, the second goes to Alice. -/
theorem swapHTLC_split_witness :
    handleSwapHTLC (fun _ => "Y")
        (fun _ _ => .ok { id := "k", amount := 2, secret := "d", C := "cd" })
        [("h", { outputData :=
                   [{ blindedMessage := { amount := 2, B_ := "b0", id := "k" },
                      r := "r0", secret := "sd" }],
                 amount := 2, alicePubkey := "alice", timestamp := 0 })]
        "h"
        (.ok [{ C_ := "c0", id := "k", amount := 2 },
              { C_ := "c1", id := "k", amount := 8 }])
        [] =
      { errorCode := none,
        sentToAlice := some ("alice", ("h", [{ C_ := "c1", id := "k", amount := 8 }])),
        store := saveProofs (fun _ => "Y") []
          [{ id := "k", amount := 2, secret := "d", C := "cd" }],
        pendingAfter := [] } ∧
    ([{ C_ := "c0", id := "k", amount := 2 },
      { C_ := "c1", id := "k", amount := 8 }] : List BlindedSig).take 1 ++
      ([{ C_ := "c0", id := "k", amount := 2 },
        { C_ := "c1", id := "k", amount := 8 }] : List BlindedSig).drop 1 =
      [{ C_ := "c0", id := "k", amount := 2 },
       { C_ := "c1", id := "k", amount := 8 }] := by
  have h := swapHTLC_split (fun _ => "Y")
    (fun _ _ => .ok { id := "k", amount := 2, secret := "d", C := "cd" })
    [("h", { outputData :=
               [{ blindedMessage := { amount := 2, B_ := "b0", id := "k" },
                  r := "r0", secret := "sd" }],
             amount := 2, alicePubkey := "alice", timestamp := 0 })]
    "h"
    { outputData :=
        [{ blindedMessage := { amount := 2, B_ := "b0", id := "k" },
           r := "r0", secret := "sd" }],
      amount := 2, alicePubkey := "alice", timestamp := 0 }
    [{ C_ := "c0", id := "k", amount := 2 },
     { C_ := "c1", id := "k", amount := 8 }]
    [] [{ id := "k", amount := 2, secret := "d", C := "cd" }]
    rfl rfl
  exact h

/-! ## Gateway payment listener (`MakeInvoiceHandler.setupPaymentListener`
and `processPayment`, `src/dealer.ts`)

The listener state holds the `processedPayments` set (modelled as a list)
and the `pendingReceiveRequests` map.  `sha256hex` abstracts
`bytesToHex(sha256(hexToBytes(preimage)))`; the `outcome` parameter
abstracts the environment of one `processPayment` run: whether the wallet
steps before the dealer request throw, and whether the awaited dealer
request itself throws after being sent. -/

/-- A pending receive request stored by the gateway, keyed by payment
hash. -/
structure PendingReceiveRequest where
  alicePubkey : String
  blindedMessages : List SerializedBlindedMessage
  requestPreimageHash : String
  dealerPubkey : String
  timestamp : Nat
  deriving Repr, DecidableEq

/-- A `payment_received` notification `tx`: the fields the listener reads. -/
structure PaymentNotification where
  preimage : Option String
  invoice : Option String
  deriving Repr, DecidableEq

/-- The listener's mutable state. -/
structure ListenerState where
  processedPayments : List String
  pendingReceiveRequests : List (String × PendingReceiveRequest)
  deriving Repr, DecidableEq

/-- An outgoing request the handler emits. -/
inductive ListenerAction where
  | swapHtlcRequest (dealerPubkey requestPreimageHash preimage alicePubkey :
      String)
  deriving Repr, DecidableEq

/-- The preimage carried by an emitted `swap_htlc` request. -/
def actionPreimage : ListenerAction → String
  | .swapHtlcRequest _ _ preimage _ => preimage

/-- How one `processPayment` run interacts with its environment: the wallet
steps before the dealer request throw (`failBeforeSend`), or the `swap_htlc`
request is sent and the await returns (`sentOk`, covering both success and a
dealer error response), or the request is sent and the await then throws
(`sentThenThrow`, e.g. a messaging timeout). -/
inductive ProcessPaymentOutcome where
  | failBeforeSend
  | sentOk
  | sentThenThrow
  deriving Repr, DecidableEq

/-- `MakeInvoiceHandler.processPayment`, restricted to its emitted requests:
returns the emitted `swap_htlc` requests together with `true` when the run
returned without throwing (so that the caller deletes the pending entry).
A notification without an invoice logs and returns without emitting. -/
def processPayment
    (outcome : PaymentNotification → PendingReceiveRequest →
      ProcessPaymentOutcome)
    (tx : PaymentNotification) (preimage : String)
    (req : PendingReceiveRequest) : List ListenerAction × Bool :=
  match tx.invoice with
  | none => ([], true)
  | some _ =>
    match outcome tx req with
    | .failBeforeSend => ([], false)
    | .sentOk =>
        ([.swapHtlcRequest req.dealerPubkey req.requestPreimageHash preimage
            req.alicePubkey], true)
    | .sentThenThrow =>
        ([.swapHtlcRequest req.dealerPubkey req.requestPreimageHash preimage
            req.alicePubkey], false)

/-- One `payment_received` notification through the listener: no preimage —
return; already processed — return; otherwise mark the preimage processed,
hash it, look up the pending request, run `processPayment`, and delete the
pending entry when `processPayment` returned without throwing. -/
def paymentReceivedStep (sha256hex : String → String)
    (outcome : PaymentNotification → PendingReceiveRequest →
      ProcessPaymentOutcome)
    (s : ListenerState) (tx : PaymentNotification) :
    ListenerState × List ListenerAction :=
  match tx.preimage with
  | none => (s, [])
  | some preimage =>
    if s.processedPayments.contains preimage then (s, [])
    else
      let s₁ : ListenerState :=
        { s with processedPayments := preimage :: s.processedPayments }
      let preimageHash := sha256hex preimage
      match List.lookup preimageHash s₁.pendingReceiveRequests with
      | none => (s₁, [])
      | some req =>
        let pa := processPayment outcome tx preimage req
        if pa.2 then
          ({ s₁ with pendingReceiveRequests :=
              s₁.pendingReceiveRequests.filter fun kv =>
                kv.1 != preimageHash }, pa.1)
        else (s₁, pa.1)

/-- Feed a list of notifications through the listener, collecting the
emitted requests in order. -/
def runListener (sha256hex : String → String)
    (outcome : PaymentNotification → PendingReceiveRequest →
      ProcessPaymentOutcome) :
    ListenerState → List PaymentNotification →
      ListenerState × List ListenerAction
  | s, [] => (s, [])
  | s, tx :: rest =>
    let step := paymentReceivedStep sha256hex outcome s tx
    let restRun := runListener sha256hex outcome step.1 rest
    (restRun.1, step.2 ++ restRun.2)

/-- Is this action a `swap_htlc` request for the given preimage? -/
def isSwapFor (preimage : String) (a : ListenerAction) : Bool :=
  actionPreimage a == preimage

/-- Number of `swap_htlc` requests for the given preimage. -/
def swapCount (actions : List ListenerAction) (preimage : String) : Nat :=
  (actions.filter (isSwapFor preimage)).length

theorem swapCount_append (a b : List ListenerAction) (p : String) :
    swapCount (a ++ b) p = swapCount a p + swapCount b p := by
  simp [swapCount, List.filter_append]

theorem swapCount_of_all_ne (acts : List ListenerAction) (p q : String)
    (hall : ∀ a ∈ acts, actionPreimage a = q) (hne : p ≠ q) :
    swapCount acts p = 0 := by
  simp only [swapCount, List.length_eq_zero, List.filter_eq_nil]
  intro a ha
  simp only [isSwapFor, hall a ha, beq_iff_eq]
  exact fun h => hne h.symm

theorem swapCount_le_length (acts : List ListenerAction) (p : String) :
    swapCount acts p ≤ acts.length :=
  List.length_filter_le _ acts

theorem processPayment_actions
    (outcome : PaymentNotification → PendingReceiveRequest →
      ProcessPaymentOutcome)
    (tx : PaymentNotification) (preimage : String)
    (req : PendingReceiveRequest) :
    (∀ a ∈ (processPayment outcome tx preimage req).1,
      actionPreimage a = preimage) ∧
    (processPayment outcome tx preimage req).1.length ≤ 1 := by
  unfold processPayment
  cases tx.invoice with
  | none => simp
  | some inv => cases outcome tx req <;> simp [actionPreimage]

theorem paymentReceivedStep_spec (sha256hex : String → String)
    (outcome : PaymentNotification → PendingReceiveRequest →
      ProcessPaymentOutcome)
    (s : ListenerState) (tx : PaymentNotification) :
    ((paymentReceivedStep sha256hex outcome s tx).2 = [] ∧
     (paymentReceivedStep sha256hex outcome s tx).1.processedPayments =
       s.processedPayments) ∨
    (∃ q, tx.preimage = some q ∧
      s.processedPayments.contains q = false ∧
      (paymentReceivedStep sha256hex outcome s tx).1.processedPayments =
        q :: s.processedPayments ∧
      (∀ a ∈ (paymentReceivedStep sha256hex outcome s tx).2,
        actionPreimage a = q) ∧
      (paymentReceivedStep sha256hex outcome s tx).2.length ≤ 1) := by
  cases htx : tx.preimage with
  | none =>
      left
      have hstep : paymentReceivedStep sha256hex outcome s tx = (s, []) := by
        simp [paymentReceivedStep, htx]
      rw [hstep]
      exact ⟨rfl, rfl⟩
  | some q =>
      by_cases hq : s.processedPayments.contains q = true
      · left
        have hqm : q ∈ s.processedPayments := by simpa using hq
        have hstep : paymentReceivedStep sha256hex outcome s tx = (s, []) := by
          simp [paymentReceivedStep, htx, hqm]
        rw [hstep]
        exact ⟨rfl, rfl⟩
      · have hq' : s.processedPayments.contains q = false := by
          cases hcb : s.processedPayments.contains q
          · rfl
          · exact absurd hcb hq
        have hqm : q ∉ s.processedPayments := by simpa using hq'
        right
        refine ⟨q, rfl, hq', ?_⟩
        cases hl : List.lookup (sha256hex q) s.pendingReceiveRequests with
        | none =>
            have hstep : paymentReceivedStep sha256hex outcome s tx =
                ({ processedPayments := q :: s.processedPayments,
                   pendingReceiveRequests := s.pendingReceiveRequests }, []) := by
              simp [paymentReceivedStep, htx, hqm, hl]
            rw [hstep]
            exact ⟨rfl, by simp, by simp⟩
        | some req =>
            by_cases hpa : (processPayment outcome tx q req).2 = true
            · have hstep : paymentReceivedStep sha256hex outcome s tx =
                  ({ processedPayments := q :: s.processedPayments,
                     pendingReceiveRequests :=
                       s.pendingReceiveRequests.filter fun kv =>
                         kv.1 != sha256hex q },
                   (processPayment outcome tx q req).1) := by
                simp [paymentReceivedStep, htx, hqm, hl, hpa]
              rw [hstep]
              exact ⟨rfl, (processPayment_actions outcome tx q req).1,
                (processPayment_actions outcome tx q req).2⟩
            · have hpa' : (processPayment outcome tx q req).2 = false := by
                cases hcb : (processPayment outcome tx q req).2
                · rfl
                · exact absurd hcb hpa
              have hstep : paymentReceivedStep sha256hex outcome s tx =
                  ({ processedPayments := q :: s.processedPayments,
                     pendingReceiveRequests := s.pendingReceiveRequests },
                   (processPayment outcome tx q req).1) := by
                simp [paymentReceivedStep, htx, hqm, hl, hpa']
              rw [hstep]
              exact ⟨rfl, (processPayment_actions outcome tx q req).1,
                (processPayment_actions outcome tx q req).2⟩

/-- C7: over any run of the payment listener, at most one `swap_htlc`
request is emitted per preimage, and none at all once the preimage is
already marked processed — later notifications with the same preimage are
ignored. -/
theorem paymentListener_dedup (sha256hex : String → String)
    (outcome : PaymentNotification → PendingReceiveRequest →
      ProcessPaymentOutcome)
    (txs : List PaymentNotification) :
    ∀ (s : ListenerState) (p : String),
      (p ∈ s.processedPayments →
        swapCount (runListener sha256hex outcome s txs).2 p = 0) ∧
      swapCount (runListener sha256hex outcome s txs).2 p ≤ 1 := by
  induction txs with
  | nil =>
      intro s p
      exact ⟨fun _ => rfl, by simp [runListener, swapCount]⟩
  | cons tx rest ih =>
      intro s p
      have hrun : (runListener sha256hex outcome s (tx :: rest)).2 =
          (paymentReceivedStep sha256hex outcome s tx).2 ++
            (runListener sha256hex outcome
              (paymentReceivedStep sha256hex outcome s tx).1 rest).2 := rfl
      rcases paymentReceivedStep_spec sha256hex outcome s tx with
        ⟨hacts, hproc⟩ | ⟨q, _, hqf, hproc, hall, hlen⟩
      · constructor
        · intro hp
          rw [hrun, swapCount_append, hacts]
          have hp₁ : p ∈ (paymentReceivedStep sha256hex outcome s tx).1.processedPayments := by
            rw [hproc]; exact hp
          simpa [swapCount] using
            (ih (paymentReceivedStep sha256hex outcome s tx).1 p).1 hp₁
        · rw [hrun, swapCount_append, hacts]
          simpa [swapCount] using
            (ih (paymentReceivedStep sha256hex outcome s tx).1 p).2
      · have hqmem : q ∉ s.processedPayments := by simpa using hqf
        have hmem₁ : ∀ r ∈ s.processedPayments,
            r ∈ (paymentReceivedStep sha256hex outcome s tx).1.processedPayments := by
          intro r hr
          rw [hproc]
          exact List.mem_cons_of_mem q hr
        constructor
        · intro hp
          have hpq : p ≠ q := fun h => hqmem (h ▸ hp)
          rw [hrun, swapCount_append,
            swapCount_of_all_ne _ p q hall hpq,
            (ih _ p).1 (hmem₁ p hp)]
        · by_cases hp : p ∈ s.processedPayments
          · have hpq : p ≠ q := fun h => hqmem (h ▸ hp)
            rw [hrun, swapCount_append,
              swapCount_of_all_ne _ p q hall hpq,
              (ih _ p).1 (hmem₁ p hp)]
            omega
          · by_cases hpq : p = q
            · subst hpq
              have hp₁ : p ∈ (paymentReceivedStep sha256hex outcome s tx).1.processedPayments := by
                rw [hproc]; exact List.mem_cons_self p _
              rw [hrun, swapCount_append, (ih _ p).1 hp₁]
              have := le_trans (swapCount_le_length
                (paymentReceivedStep sha256hex outcome s tx).2 p) hlen
              omega
            · rw [hrun, swapCount_append,
                swapCount_of_all_ne _ p q hall hpq]
              simpa using (ih _ p).2

/-- Closed witness for C7: two notifications with the same preimage, the
preimage already marked processed — no `swap_htlc` is emitted. -/
theorem paymentListener_dedup_witness :
    (swapCount (runListener (fun h => h) (fun _ _ => .sentOk)
        { processedPayments := ["pp"], pendingReceiveRequests := [] }
        [{ preimage := some "pp", invoice := some "inv" },
         { preimage := some "pp", invoice := some "inv" }]).2 "pp" = 0) ∧
    swapCount (runListener (fun h => h) (fun _ _ => .sentOk)
        { processedPayments := ["pp"], pendingReceiveRequests := [] }
        [{ preimage := some "pp", invoice := some "inv" },
         { preimage := some "pp", invoice := some "inv" }]).2 "pp" ≤ 1 := by
  have h := paymentListener_dedup (fun h => h) (fun _ _ => .sentOk)
    [{ preimage := some "pp", invoice := some "inv" },
     { preimage := some "pp", invoice := some "inv" }]
    { processedPayments := ["pp"], pendingReceiveRequests := [] } "pp"
  exact ⟨h.1 (by simp), h.2⟩

end Gateway
